import Mathlib

/-!
Verification development for the singularity container runtime core.

Shallow embeddings of:
* the container cleanup coordinator and unmount primitive
  (internal/pkg/runtime/engine/singularity/cleanup_linux.go),
* the starter stage dispatch (cmd/starter/main_linux.go),
* the OCI overlay wrappers
  (internal/pkg/runtime/launcher/oci/oci_overlay.go),
* the overlay set mount validation (internal/pkg/util/fs/overlay).

Effects (syscalls, subprocesses) are represented by outcome oracles:
each potentially failing external operation is a parameter giving its
result, and the embedded functions return a trace of the operations
they performed together with the value the Go function would return.
-/

/-- Errno values relevant to the unmount loop of cleanup_linux.go.
EINVAL means "not a mount point", EBUSY "device busy"; eperm and enoent
stand for the other (fatal) errno values. -/
inductive Errno
  | einval
  | ebusy
  | eperm
  | enoent
deriving DecidableEq

/-- Outcome of the per-mount-point retry loop inside umount
(cleanup_linux.go, the `retry:` block). `ok leakedEinval` means the loop
moved on to the next point; `leakedEinval` records that the last Unmount
syscall for this point returned EINVAL, which the loop ignores but which
stays in the named return variable `err`. `fatal e` corresponds to the
`return fmt.Errorf("while unmounting %s directory: %s", p, err)` exit. -/
inductive PointOutcome
  | ok (leakedEinval : Bool)
  | fatal (e : Errno)
deriving DecidableEq

/-- The `retry:` loop of `umount` for a single mount point.
`f k` is the result of the k-th Unmount syscall on this point
(`none` = success). `allowed` counts the remaining retries permitted by
the Go condition `retries < 10` (so `allowed = 10 - retries`), and `k`
is the number of attempts already made. Returns the outcome together
with the total number of Unmount syscalls performed on this point. -/
def tryPointAux (f : Nat → Option Errno) : Nat → Nat → PointOutcome × Nat
  | allowed, k =>
    match f k with
    | none => (PointOutcome.ok false, k + 1)
    | some e =>
      if e = Errno.einval then (PointOutcome.ok true, k + 1)
      else if e = Errno.ebusy then
        match allowed with
        | 0 => (PointOutcome.fatal e, k + 1)
        | a + 1 => tryPointAux f a (k + 1)
      else (PointOutcome.fatal e, k + 1)

/-- The retry loop as entered by `umount`: `retries` starts at 0 and the
guard is `retries < 10`, so 10 retries beyond the first attempt are
allowed. -/
def tryPoint (f : Nat → Option Errno) : PointOutcome × Nat :=
  tryPointAux f 10 0

/-- Result of the `for i := len(umountPoints) - 1; i >= 0; i--` loop of
`umount`. `done lastEinval` means the loop finished all points;
`lastEinval` is true when the named return variable `err` still holds
the EINVAL produced by the final Unmount syscall of the last processed
point. -/
inductive LoopRes
  | done (lastEinval : Bool)
  | fatal (p : String) (e : Errno)
deriving DecidableEq

/-- The unmount loop of `umount`, over the list of points in traversal
order (the caller passes `umountPoints.reverse`). `b p k` is the result
of the k-th Unmount syscall on point `p`. The boolean argument is the
current content of the named return variable `err` (true = EINVAL).
Returns the trace of processed points with their syscall counts, and
the loop result. -/
def umountGo (b : String → Nat → Option Errno) :
    List String → Bool → List (String × Nat) × LoopRes
  | [], c => ([], LoopRes.done c)
  | q :: rest, _ =>
    match tryPoint (b q) with
    | (PointOutcome.fatal e, n) => ([(q, n)], LoopRes.fatal q e)
    | (PointOutcome.ok leaked, n) =>
      let r := umountGo b rest leaked
      ((q, n) :: r.1, r.2)

/-- Modelled from the spec: `capabilities.SetProcessEffective`
(internal/pkg/util/capabilities, whose source is not under src/) sets
the process effective capability set to the given mask and returns the
previous set; on failure it returns an error and leaves the set
unchanged ("Failure to raise returns an error without modifying process
state"). `current` is the effective set before the call, `failure` the
oracle outcome of the call. On success the result is the pair
(previous set, new effective set). -/
def setProcessEffective (current mask : Nat) (failure : Option Errno) :
    Except Errno (Nat × Nat) :=
  match failure with
  | some e => Except.error e
  | none => Except.ok (current, mask)

/-- CAP_SYS_ADMIN has value 21 on Linux; `umount` raises exactly this
bit: `caps |= uint64(1 << capabilities.Map["CAP_SYS_ADMIN"].Value)`. -/
def adminCaps : Nat := 2 ^ 21

/-- Environment of one call to `umount`: the registered mount points
(global `umountPoints`, in registration order), the outcome oracle for
the Unmount syscalls, and the outcomes of the capability raise and
restore calls. -/
structure UmountEnv where
  umountPoints : List String
  unmountSys : String → Nat → Option Errno
  raiseRes : Option Errno
  restoreRes : Option Errno
  initialEffective : Nat

/-- Error value returned by `umount`: `raiseFailed` is the early
`return err` after a failed capability raise, `whileUnmounting` the
wrapped `fmt.Errorf` of a fatal unmount failure, and `plainErrno` a bare
errno returned through the named return variable (either the EINVAL of
the last point leaking through `return err`, or a restore error
installed by the deferred function when `err == nil`). -/
inductive UmountErr
  | raiseFailed (e : Errno)
  | whileUnmounting (p : String) (e : Errno)
  | plainErrno (e : Errno)
deriving DecidableEq

/-- Observable result of one `umount` call. -/
structure UmountResult where
  trace : List (String × Nat)
  ret : Option UmountErr
  finalEffective : Nat
deriving DecidableEq

/-- The unmount loop of `umount` as run on an environment: the
registered points are traversed in reverse registration order, with the
named return variable `err` starting out nil. -/
def umountLoop (env : UmountEnv) : List (String × Nat) × LoopRes :=
  umountGo env.unmountSys env.umountPoints.reverse false

/-- The `umount` function of cleanup_linux.go: raise CAP_SYS_ADMIN
(aborting before any unmount if that fails), run the unmount loop over
the registered points in reverse order, and restore the previous
effective set in a deferred call whose error replaces `err` only when
`err == nil`. -/
def umountModel (env : UmountEnv) : UmountResult :=
  match setProcessEffective env.initialEffective adminCaps env.raiseRes with
  | Except.error e =>
    { trace := [], ret := some (UmountErr.raiseFailed e),
      finalEffective := env.initialEffective }
  | Except.ok (oldEffective, raisedState) =>
    let finalEff :=
      match setProcessEffective raisedState oldEffective env.restoreRes with
      | Except.ok (_, st) => st
      | Except.error _ => raisedState
    match (umountLoop env).2 with
    | LoopRes.fatal p e =>
      { trace := (umountLoop env).1,
        ret := some (UmountErr.whileUnmounting p e),
        finalEffective := finalEff }
    | LoopRes.done true =>
      { trace := (umountLoop env).1,
        ret := some (UmountErr.plainErrno Errno.einval),
        finalEffective := finalEff }
    | LoopRes.done false =>
      match env.restoreRes with
      | some e2 =>
        { trace := (umountLoop env).1,
          ret := some (UmountErr.plainErrno e2),
          finalEffective := finalEff }
      | none =>
        { trace := (umountLoop env).1, ret := none,
          finalEffective := finalEff }

/-- The fields of the engine configuration consulted by
`CleanupContainer` (read through the GetImageFuse, GetDeleteTempDir,
GetFakeroot, GetNetwork and GetInstance accessors). -/
structure EngineConfig where
  imageFuse : Bool
  deleteTempDir : String
  fakeroot : Bool
  network : String
  instanceFlag : Bool
deriving DecidableEq

/-- Ambient process state read by `CleanupContainer`: the real uid and
effective uid, and whether the global `networkSetup`, `cgroupsManager`
and `cryptDev` cleanup registries are populated. -/
structure HostState where
  uid : Nat
  euid : Nat
  networkSetupPresent : Bool
  cgroupsManagerPresent : Bool
  cryptDev : String
deriving DecidableEq

/-- Outcome oracle for the individual cleanup actions performed by
`CleanupContainer` (`none` means the action succeeded). -/
structure StepOutcomes where
  umountErr : Option String
  tempDirErr : Option String
  delNetworksErr : Option String
  cgroupDestroyErr : Option String
  cryptCleanupErr : Option String
  instanceGetErr : Option String
  instanceDeleteErr : Option String
deriving DecidableEq

/-- The cleanup actions `CleanupContainer` can perform, in source
order. `removeTempDirFakeroot` is the `fakerootCleanup(tempDir)` call
(privilege-escalated helper subprocess), `removeTempDirPlain` the
`os.RemoveAll(tempDir)` call, and `deleteInstanceFile` the
`instance.Get` / `file.Delete` pair of the instance branch. -/
inductive Step
  | stopFuseDrivers
  | umountRootfs
  | removeTempDirFakeroot
  | removeTempDirPlain
  | delNetworks
  | destroyCgroup
  | cleanupCrypt
  | deleteInstanceFile
deriving DecidableEq

/-- Observable result of `CleanupContainer`: the actions performed, the
errors logged via sylog (Errorf / Warningf), and the returned error. -/
structure CleanupTrace where
  steps : List Step
  logs : List String
  ret : Option String
deriving DecidableEq

/-- Turn an action outcome into the list of log entries it produces. -/
def optLog : Option String → List String
  | some e => [e]
  | none => []

/-- `CleanupContainer` of cleanup_linux.go. Each guarded action is
executed when its configuration guard holds; a failure is appended to
the log and the function continues. Only the instance branch returns an
error: `instance.Get` failure is returned directly, otherwise the
result of `file.Delete` is returned. -/
def CleanupContainer (cfg : EngineConfig) (host : HostState)
    (out : StepOutcomes) : CleanupTrace :=
  let steps1 := [Step.stopFuseDrivers]
  let steps2 := if cfg.imageFuse then [Step.umountRootfs] else []
  let logs2 := if cfg.imageFuse then optLog out.umountErr else []
  let steps3 :=
    if cfg.deleteTempDir ≠ "" ∧ cfg.imageFuse = false then
      [if cfg.fakeroot = true ∧ host.uid ≠ 0 then Step.removeTempDirFakeroot
       else Step.removeTempDirPlain]
    else []
  let logs3 :=
    if cfg.deleteTempDir ≠ "" ∧ cfg.imageFuse = false then
      optLog out.tempDirErr
    else []
  let steps4 := if host.networkSetupPresent then [Step.delNetworks] else []
  let logs4 :=
    if host.networkSetupPresent then optLog out.delNetworksErr else []
  let steps5 :=
    if host.cgroupsManagerPresent then [Step.destroyCgroup] else []
  let logs5 :=
    if host.cgroupsManagerPresent then optLog out.cgroupDestroyErr else []
  let steps6 := if host.cryptDev ≠ "" then [Step.cleanupCrypt] else []
  let logs6 := if host.cryptDev ≠ "" then optLog out.cryptCleanupErr else []
  let pre := steps1 ++ steps2 ++ steps3 ++ steps4 ++ steps5 ++ steps6
  let logs := logs2 ++ logs3 ++ logs4 ++ logs5 ++ logs6
  if cfg.instanceFlag then
    { steps := pre ++ [Step.deleteInstanceFile], logs := logs,
      ret :=
        match out.instanceGetErr with
        | some e => some e
        | none => out.instanceDeleteErr }
  else { steps := pre, logs := logs, ret := none }

/-- The all-success outcome pattern. -/
def noFailures : StepOutcomes :=
  { umountErr := none, tempDirErr := none, delNetworksErr := none,
    cgroupDestroyErr := none, cryptCleanupErr := none,
    instanceGetErr := none, instanceDeleteErr := none }

/-- The five values of the `goexecute` stage selector read from the
shared configuration block (cmd/starter/c, consumed by
cmd/starter/main_linux.go). -/
inductive StageSelector
  | STAGE1
  | STAGE2
  | MASTER
  | RPC_SERVER
  | CLEANUP_HOST
deriving DecidableEq

/-- The five stage functions of internal/app/starter that `startup`
can invoke. -/
inductive StageFunc
  | StageOne
  | StageTwo
  | Master
  | RPCServer
  | CleanupHost
deriving DecidableEq

/-- The `switch C.goexecute` dispatch of `startup` in
cmd/starter/main_linux.go, as the list of stage functions invoked.
`releaseOk` is the outcome of `sconfig.Release()`; in the STAGE2,
MASTER, RPC_SERVER and CLEANUP_HOST branches a Release failure hits
`sylog.Fatalf` (process exit) before the stage function is called,
while the STAGE1 branch calls `starter.StageOne` directly. -/
def startup (sel : StageSelector) (releaseOk : Bool) : List StageFunc :=
  match sel with
  | StageSelector.STAGE1 => [StageFunc.StageOne]
  | StageSelector.STAGE2 => if releaseOk then [StageFunc.StageTwo] else []
  | StageSelector.MASTER => if releaseOk then [StageFunc.Master] else []
  | StageSelector.RPC_SERVER =>
    if releaseOk then [StageFunc.RPCServer] else []
  | StageSelector.CLEANUP_HOST =>
    if releaseOk then [StageFunc.CleanupHost] else []

/-- The stage function corresponding to each stage selector. -/
def stageFor : StageSelector → StageFunc
  | StageSelector.STAGE1 => StageFunc.StageOne
  | StageSelector.STAGE2 => StageFunc.StageTwo
  | StageSelector.MASTER => StageFunc.Master
  | StageSelector.RPC_SERVER => StageFunc.RPCServer
  | StageSelector.CLEANUP_HOST => StageFunc.CleanupHost

/-- Observable result of `WrapWithWritableTmpFs`: whether the cleanup
step ran, the cleanup errors logged via sylog.Errorf, and the returned
error. -/
structure TmpfsTrace where
  cleanupRan : Bool
  logs : List String
  ret : Option String
deriving DecidableEq

/-- `WrapWithWritableTmpFs` of oci_overlay.go. `prep` is the outcome of
`prepareWritableTmpfs(bundleDir)` (ok carries the overlay dir), `fRes`
the error returned by the wrapped function `f`, `cleanupRes` the
outcome of `cleanupWritableTmpfs`. A cleanup failure is logged, never
returned; the wrapper returns the error of `f`. -/
def WrapWithWritableTmpFs (prep : Except String String)
    (fRes cleanupRes : Option String) : TmpfsTrace :=
  match prep with
  | Except.error e => { cleanupRan := false, logs := [], ret := some e }
  | Except.ok _ =>
    { cleanupRan := true, logs := optLog cleanupRes, ret := fRes }

/-- Go's `strings.SplitN(p, ":", 2)` on a descriptor, as the part
before the first colon plus (when a colon exists) the part after it. -/
def splitFirstColon : List Char → List Char × Option (List Char)
  | [] => ([], none)
  | c :: rest =>
    if c = ':' then ([], some rest)
    else
      let s := splitFirstColon rest
      (c :: s.1, s.2)

/-- The writability test of the `WrapWithOverlays` parse loop: an
overlay descriptor is writable unless the part after its first colon is
exactly "ro" (`if splitted[1] == "ro" { writable = false }`). -/
def goWritable (d : List Char) : Bool :=
  match (splitFirstColon d).2 with
  | none => true
  | some s => if s = ['r', 'o'] then false else true

/-- Whether a descriptor ends with the three characters ":ro" (the
spec-level notion "suffixed with :ro"). -/
def endsWithRo (d : List Char) : Bool :=
  match d.reverse with
  | o :: r :: c :: _ => o == 'o' && r == 'r' && c == ':'
  | _ => false

/-- The `tools.OverlaySet` being built by the `WrapWithOverlays` parse
loop: the location of the writable overlay (the Go code pairs the
`writableOverlayFound` flag with `ovs.WritableLoc`) and the read-only
locations in order of appearance. -/
structure GoOverlaySet where
  WritableLoc : Option (List Char)
  ReadonlyLocs : List (List Char)
deriving DecidableEq

/-- The parse loop of `WrapWithOverlays`: walk the overlay descriptors,
classify each as writable or read-only, and fail as soon as a second
writable descriptor is seen (`if writable && writableOverlayFound`). -/
def buildOverlaySet :
    List (List Char) → GoOverlaySet → Except String GoOverlaySet
  | [], acc => Except.ok acc
  | p :: rest, acc =>
    if goWritable p = true then
      if acc.WritableLoc.isSome = true then
        Except.error "more than one writable overlay specified"
      else
        buildOverlaySet rest
          { acc with WritableLoc := some (splitFirstColon p).1 }
    else
      buildOverlaySet rest
        { acc with ReadonlyLocs := acc.ReadonlyLocs ++ [(splitFirstColon p).1] }

/-- Observable result of `WrapWithOverlays`: whether
`tools.ApplyOverlay` was called, whether the `tools.UnmountOverlay`
cleanup ran, the cleanup errors logged, and the returned error. -/
structure OverlayWrapTrace where
  applyAttempted : Bool
  cleanupRan : Bool
  logs : List String
  ret : Option String
deriving DecidableEq

/-- `WrapWithOverlays` of oci_overlay.go: parse the descriptor list
(rejecting a second writable overlay before any mount work), then call
`tools.ApplyOverlay` (outcome `applyRes`), run `f` (outcome `fRes`),
and finally run the `tools.UnmountOverlay` cleanup (outcome
`unmountRes`), whose failure is logged, never returned; balance
returned is the error of `f`. -/
def WrapWithOverlays (descs : List (List Char))
    (applyRes fRes unmountRes : Option String) : OverlayWrapTrace :=
  match buildOverlaySet descs { WritableLoc := none, ReadonlyLocs := [] } with
  | Except.error e =>
    { applyAttempted := false, cleanupRan := false, logs := [],
      ret := some e }
  | Except.ok _ =>
    match applyRes with
    | some e =>
      { applyAttempted := true, cleanupRan := false, logs := [],
        ret := some e }
    | none =>
      { applyAttempted := true, cleanupRan := true,
        logs := optLog unmountRes, ret := fRes }

/-- Modelled from the spec: an overlay item of
internal/pkg/util/fs/overlay (overlay_item_linux.go, whose source is
not under src/), reduced to its resolved source path, the component the
duplicate check compares. -/
structure OverlayItem where
  SourcePath : String
deriving DecidableEq

/-- Modelled from the spec: the overlay `Set` of
internal/pkg/util/fs/overlay (overlay_set_linux.go, whose source is not
under src/): an ordered list of read-only items plus at most one
writable item. -/
structure OverlaySet where
  ReadonlyOverlays : List OverlayItem
  WritableOverlay : Option OverlayItem

/-- All resolved source paths of a set, read-only items first, then the
writable item when present. -/
def OverlaySet.sourcePaths (s : OverlaySet) : List String :=
  (s.ReadonlyOverlays ++ s.WritableOverlay.toList).map OverlayItem.SourcePath

/-- Mount syscalls performed by `Set.Mount`: one per item plus the
final overlay composition at the rootfs dir. -/
inductive MountOp
  | mountItem (src : String) (rootfsDir : String)
  | overlayMount (rootfsDir : String)
deriving DecidableEq

/-- Modelled from the spec: `Set.Mount(rootfsDir)` of
overlay_set_linux.go (not under src/). Per spec section 4.3 it first
validates that no two items share a resolved SourcePath (checked across
both read-only and writable items) and on any validation failure
returns an error and performs no mounts (all-or-nothing); on success it
mounts the items bottom-to-top and composes the overlay at rootfsDir.
The result is the list of mount syscalls performed and the returned
error. -/
def OverlaySet.Mount (s : OverlaySet) (rootfsDir : String) :
    List MountOp × Option String :=
  if s.sourcePaths.Nodup then
    (s.sourcePaths.map (fun p => MountOp.mountItem p rootfsDir)
      ++ [MountOp.overlayMount rootfsDir], none)
  else ([], some "duplicate overlay source path")

/-- Concrete syscall pattern: EBUSY on the first three attempts, then
success. -/
def busyThree : Nat → Option Errno :=
  fun k => if k < 3 then some Errno.ebusy else none

/-- Concrete syscall pattern: EBUSY on attempts 0 through 9 (ten
consecutive EBUSY results), then success. -/
def busyTen : Nat → Option Errno :=
  fun k => if k < 10 then some Errno.ebusy else none

/-- Concrete umount environment: a single registered point whose
unmount always reports EINVAL (already not a mount point). -/
def envEinvalLast : UmountEnv :=
  { umountPoints := ["/mnt/rootfs"],
    unmountSys := fun _ _ => some Errno.einval,
    raiseRes := none, restoreRes := none, initialEffective := 0 }

/-- Concrete umount environment: three registered points, the middle
one already unmounted (EINVAL), the others fine. -/
def envEinvalMid : UmountEnv :=
  { umountPoints := ["/a", "/b", "/c"],
    unmountSys := fun p _ => if p = "/b" then some Errno.einval else none,
    raiseRes := none, restoreRes := none, initialEffective := 0 }

/-- Concrete umount environment: the single point fails with a fatal
errno (ENOENT) and the capability restore fails with EPERM. -/
def envRestoreFail : UmountEnv :=
  { umountPoints := ["/p"],
    unmountSys := fun _ _ => some Errno.enoent,
    raiseRes := none, restoreRes := some Errno.eperm,
    initialEffective := 0 }

/-- Concrete umount environment: the capability raise itself fails. -/
def envRaiseFail : UmountEnv :=
  { umountPoints := ["/x"], unmountSys := fun _ _ => none,
    raiseRes := some Errno.eperm, restoreRes := none,
    initialEffective := 5 }

/-- Concrete umount environment: two registered points, the
later-registered one ("/b", attempted first) fails fatally. -/
def envFatalFirst : UmountEnv :=
  { umountPoints := ["/a", "/b"],
    unmountSys := fun p _ => if p = "/b" then some Errno.enoent else none,
    raiseRes := none, restoreRes := none, initialEffective := 0 }

/-- Concrete cleanup configuration: fakeroot run with a temp dir and no
image fuse. -/
def cfgTempFakeroot : EngineConfig :=
  { imageFuse := false, deleteTempDir := "/tmp/image", fakeroot := true,
    network := "none", instanceFlag := false }

/-- Concrete cleanup configuration: a temp dir is recorded but the
image is served through FUSE. -/
def cfgTempImageFuse : EngineConfig :=
  { imageFuse := true, deleteTempDir := "/tmp/image", fakeroot := true,
    network := "none", instanceFlag := false }

/-- Concrete host state: unprivileged user, no registered network,
cgroup or crypt handles. -/
def hostUnprivileged : HostState :=
  { uid := 1000, euid := 1000, networkSetupPresent := false,
    cgroupsManagerPresent := false, cryptDev := "" }

/-- Concrete overlay descriptor list: one read-only lower layer and one
writable upper layer. -/
def descsOneWritable : List (List Char) :=
  [String.toList "/lower1:ro", String.toList "/upper"]

/-- The overlay set built from `descsOneWritable`. -/
def ovsOneWritable : GoOverlaySet :=
  { WritableLoc := some (String.toList "/upper"),
    ReadonlyLocs := [String.toList "/lower1"] }

/-- Concrete overlay descriptor list with two writable entries. -/
def descsTwoWritable : List (List Char) :=
  [String.toList "/a", String.toList "/b"]

/-- Concrete overlay set in which a read-only item and the writable
item share the same resolved source path. -/
def dupSet : OverlaySet :=
  { ReadonlyOverlays := [{ SourcePath := "/ovl" }],
    WritableOverlay := some { SourcePath := "/ovl" } }

/-! Section: Helper lemmas -/

lemma tryPointAux_busy_run (f : Nat → Option Errno) :
    ∀ n allowed k : Nat, n ≤ allowed →
      (∀ j, j < n → f (k + j) = some Errno.ebusy) →
      f (k + n) = none →
      tryPointAux f allowed k = (PointOutcome.ok false, k + n + 1) := by
  intro n
  induction n with
  | zero =>
    intro allowed k _ _ hs
    simp only [Nat.add_zero] at hs
    unfold tryPointAux
    rw [hs]
  | succ m ih =>
    intro allowed k h1 h2 h3
    have hb : f k = some Errno.ebusy := by
      simpa using h2 0 (Nat.succ_pos m)
    obtain ⟨a, rfl⟩ : ∃ a, allowed = a + 1 := ⟨allowed - 1, by omega⟩
    have hstep : tryPointAux f (a + 1) k = tryPointAux f a (k + 1) := by
      conv_lhs => unfold tryPointAux
      rw [hb]
      exact rfl
    rw [hstep]
    have h2m : ∀ j, j < m → f (k + 1 + j) = some Errno.ebusy := by
      intro j hj
      have hx := h2 (j + 1) (by omega)
      have e : k + (j + 1) = k + 1 + j := by omega
      rwa [e] at hx
    have h3m : f (k + 1 + m) = none := by
      have e : k + (m + 1) = k + 1 + m := by omega
      rwa [e] at h3
    have hrec := ih a (k + 1) (by omega) h2m h3m
    rw [hrec]
    simp only [Prod.mk.injEq, true_and]
    omega

lemma tryPointAux_busy_fatal (f : Nat → Option Errno) :
    ∀ allowed k : Nat,
      (∀ j, j ≤ allowed → f (k + j) = some Errno.ebusy) →
      tryPointAux f allowed k
        = (PointOutcome.fatal Errno.ebusy, k + allowed + 1) := by
  intro allowed
  induction allowed with
  | zero =>
    intro k h
    have hb : f k = some Errno.ebusy := by simpa using h 0 (Nat.le_refl 0)
    have hstep : tryPointAux f 0 k
        = (PointOutcome.fatal Errno.ebusy, k + 0 + 1) := by
      unfold tryPointAux
      rw [hb]
      rfl
    exact hstep
  | succ a ih =>
    intro k h
    have hb : f k = some Errno.ebusy := by simpa using h 0 (by omega)
    have hstep : tryPointAux f (a + 1) k = tryPointAux f a (k + 1) := by
      conv_lhs => unfold tryPointAux
      rw [hb]
      exact rfl
    rw [hstep]
    have hm : ∀ j, j ≤ a → f (k + 1 + j) = some Errno.ebusy := by
      intro j hj
      have hx := h (j + 1) (by omega)
      have e : k + (j + 1) = k + 1 + j := by omega
      rwa [e] at hx
    have hrec := ih (k + 1) hm
    rw [hrec]
    simp only [Prod.mk.injEq, true_and]
    omega

lemma umountGo_fatal_trace (b : String → Nat → Option Errno) :
    ∀ (l : List String) (c : Bool) (p : String) (e : Errno),
      (umountGo b l c).2 = LoopRes.fatal p e →
      ∃ pre post, l = pre ++ p :: post ∧
        (umountGo b l c).1.map Prod.fst = pre ++ [p] := by
  intro l
  induction l with
  | nil =>
    intro c p e h
    simp [umountGo] at h
  | cons q rest ih =>
    intro c p e h
    rcases htp : tryPoint (b q) with ⟨out, n⟩
    cases out with
    | fatal e2 =>
      simp only [umountGo, htp] at h ⊢
      obtain ⟨rfl, rfl⟩ := h
      exact ⟨[], rest, rfl, rfl⟩
    | ok leaked =>
      simp only [umountGo, htp] at h ⊢
      obtain ⟨pre, post, h1, h2⟩ := ih leaked p e h
      refine ⟨q :: pre, post, ?_, ?_⟩
      · rw [h1]; rfl
      · simp [h2]

/-! Section: Claims about the unmount primitive -/

/-- C2 (amended): the retry loop of `umount` allows 10 retries beyond
the initial attempt. If the Unmount syscall returns EBUSY fewer than 10
times and then succeeds, the loop succeeds within at most 10 attempts.
If it returns EBUSY 10 consecutive times and then succeeds, the loop
still succeeds, on the 11th attempt, rather than surfacing a fatal
error. Only 11 consecutive EBUSY results (the initial attempt plus all
10 retries) surface a fatal EBUSY error, after exactly 11 attempts. -/
theorem umount_busy_retry_bound (f : Nat → Option Errno) :
    (∀ n, n < 10 → (∀ j, j < n → f j = some Errno.ebusy) → f n = none →
      tryPoint f = (PointOutcome.ok false, n + 1) ∧ n + 1 ≤ 10)
    ∧ ((∀ j, j < 10 → f j = some Errno.ebusy) → f 10 = none →
      tryPoint f = (PointOutcome.ok false, 11))
    ∧ ((∀ j, j ≤ 10 → f j = some Errno.ebusy) →
      tryPoint f = (PointOutcome.fatal Errno.ebusy, 11)) := by
  refine ⟨?_, ?_, ?_⟩
  · intro n hn h2 h3
    have hx := tryPointAux_busy_run f n 10 0 (by omega)
      (by simpa using h2) (by simpa using h3)
    exact ⟨by simpa [tryPoint] using hx, by omega⟩
  · intro h2 h3
    have hx := tryPointAux_busy_run f 10 10 0 (Nat.le_refl 10)
      (by simpa using h2) (by simpa using h3)
    simpa [tryPoint] using hx
  · intro h
    have hx := tryPointAux_busy_fatal f 10 0 (by simpa using h)
    simpa [tryPoint] using hx

/-- Witness for C2: with EBUSY returned three times before success,
the loop succeeds on the fourth attempt, within the 10-attempt bound. -/
theorem umount_busy_retry_bound_witness :
    tryPoint busyThree = (PointOutcome.ok false, 4) ∧ 4 ≤ 10 :=
  (umount_busy_retry_bound busyThree).1 3 (by decide) (by decide) (by decide)

/-- Counterexample for C2 as stated: a point whose unmount returns
EBUSY 10 consecutive times is retried an 11th time rather than failing;
with this pattern the loop ultimately succeeds, so 10 consecutive EBUSY
results do not surface a fatal error. -/
theorem umount_busy_retry_cex :
    (∀ j, j < 10 → busyTen j = some Errno.ebusy)
    ∧ tryPoint busyTen = (PointOutcome.ok false, 11) := by
  exact ⟨by decide, by decide⟩

/-- C8 (code bug evaluation): in `envEinvalMid` the points are
attempted in strict reverse registration order, and an EINVAL on a
middle point is swallowed (umount returns nil). But in `envEinvalLast`,
where the earliest-registered (last-attempted) point reports EINVAL,
the benign errno leaks through the named return variable and `umount`
returns it to the caller instead of nil, contradicting the inline
comment "ignore EINVAL meaning it's not a mount point". -/
theorem umount_einval_handling_eval :
    ((umountModel envEinvalMid).trace = [("/c", 1), ("/b", 1), ("/a", 1)]
      ∧ (umountModel envEinvalMid).ret = none)
    ∧ ((umountModel envEinvalLast).trace = [("/mnt/rootfs", 1)]
      ∧ (umountModel envEinvalLast).ret
          = some (UmountErr.plainErrno Errno.einval)) := by
  exact ⟨⟨by decide, by decide⟩, ⟨by decide, by decide⟩⟩

/-- C9 (amended): a failed capability raise aborts `umount` before any
unmount attempt, leaving the effective set unchanged; whenever the
restore call succeeds the effective set ends at the pre-raise snapshot
on every exit path; and a restore failure is returned to the caller
only when the unmount loop itself left a nil error (otherwise the
loop's error takes precedence and the restore failure is dropped). -/
theorem umount_capability_discipline (env : UmountEnv) :
    (∀ e, env.raiseRes = some e →
      umountModel env
        = { trace := [], ret := some (UmountErr.raiseFailed e),
            finalEffective := env.initialEffective })
    ∧ (env.raiseRes = none → env.restoreRes = none →
      (umountModel env).finalEffective = env.initialEffective)
    ∧ (∀ e2, env.raiseRes = none → env.restoreRes = some e2 →
      (umountLoop env).2 = LoopRes.done false →
      (umountModel env).ret = some (UmountErr.plainErrno e2)) := by
  refine ⟨?_, ?_, ?_⟩
  · intro e he
    simp [umountModel, he, setProcessEffective]
  · intro h1 h2
    cases hres : (umountLoop env).2 with
    | done lb =>
      cases lb <;> simp [umountModel, h1, h2, setProcessEffective, hres]
    | fatal p e =>
      simp [umountModel, h1, h2, setProcessEffective, hres]
  · intro e2 h1 h2 h3
    simp [umountModel, h1, h2, h3, setProcessEffective]

/-- Witness for C9 (amended): a failed raise in `envRaiseFail` returns
the raise error with an empty trace and untouched effective set. -/
theorem umount_capability_discipline_witness :
    umountModel envRaiseFail
      = { trace := [], ret := some (UmountErr.raiseFailed Errno.eperm),
          finalEffective := 5 } :=
  (umount_capability_discipline envRaiseFail).1 Errno.eperm rfl

/-- Counterexample for C9 as stated: in `envRestoreFail` the restore
call fails with EPERM, yet `umount` returns the unmount failure, not
the restore failure — the restore error is not propagated to the
caller when the unmount loop has already failed. -/
theorem umount_restore_not_propagated_cex :
    envRestoreFail.restoreRes = some Errno.eperm
    ∧ (umountModel envRestoreFail).ret
        = some (UmountErr.whileUnmounting "/p" Errno.enoent)
    ∧ (umountModel envRestoreFail).ret
        ≠ some (UmountErr.plainErrno Errno.eperm) := by
  exact ⟨by decide, by decide, by decide⟩

/-- C10: whenever `umount` returns a fatal unmount error for point
`p`, the attempted points form exactly the prefix of the
reverse-registration-order traversal that ends at `p`: the loop stops
immediately and no point registered earlier in the list (later in the
traversal) is attempted. -/
theorem umount_fatal_stops_traversal (env : UmountEnv) (p : String)
    (e : Errno)
    (h : (umountModel env).ret = some (UmountErr.whileUnmounting p e)) :
    ∃ pre post, env.umountPoints.reverse = pre ++ p :: post ∧
      (umountModel env).trace.map Prod.fst = pre ++ [p] := by
  cases hr : env.raiseRes with
  | some e2 => simp [umountModel, hr, setProcessEffective] at h
  | none =>
    cases hres : (umountLoop env).2 with
    | done lb =>
      cases lb with
      | true => simp [umountModel, hr, setProcessEffective, hres] at h
      | false =>
        cases hrr : env.restoreRes with
        | some e3 =>
          simp [umountModel, hr, hrr, setProcessEffective, hres] at h
        | none =>
          simp [umountModel, hr, hrr, setProcessEffective, hres] at h
    | fatal p2 e2 =>
      have hpe : p2 = p ∧ e2 = e := by
        simpa [umountModel, hr, setProcessEffective, hres] using h
      obtain ⟨rfl, rfl⟩ := hpe
      have hgo : (umountGo env.unmountSys env.umountPoints.reverse false).2
          = LoopRes.fatal p2 e2 := by
        simpa [umountLoop] using hres
      obtain ⟨pre, post, h1, h2⟩ :=
        umountGo_fatal_trace env.unmountSys env.umountPoints.reverse
          false p2 e2 hgo
      refine ⟨pre, post, h1, ?_⟩
      have htr : (umountModel env).trace = (umountLoop env).1 := by
        simp [umountModel, hr, setProcessEffective, hres]
      rw [htr]
      simpa [umountLoop] using h2

/-- Witness for C10: in `envFatalFirst` the later-registered point
"/b" fails fatally on the first traversal step, and the
earlier-registered "/a" is never attempted. -/
theorem umount_fatal_stops_traversal_witness :
    (umountModel envFatalFirst).ret
      = some (UmountErr.whileUnmounting "/b" Errno.enoent)
    ∧ ∃ pre post, envFatalFirst.umountPoints.reverse = pre ++ "/b" :: post
        ∧ (umountModel envFatalFirst).trace.map Prod.fst = pre ++ ["/b"] :=
  ⟨by decide,
   umount_fatal_stops_traversal envFatalFirst "/b" Errno.enoent (by decide)⟩

/-! Section: Claims about the cleanup coordinator -/

lemma mem_ite_list {α : Type} (a x : α) (c : Prop) [Decidable c] :
    (a ∈ if c then [x] else []) ↔ c ∧ a = x := by
  split <;> simp_all

lemma cleanupContainer_steps (cfg : EngineConfig) (host : HostState)
    (out : StepOutcomes) :
    (CleanupContainer cfg host out).steps =
      [Step.stopFuseDrivers]
      ++ (if cfg.imageFuse then [Step.umountRootfs] else [])
      ++ (if cfg.deleteTempDir ≠ "" ∧ cfg.imageFuse = false then
            [if cfg.fakeroot = true ∧ host.uid ≠ 0 then
              Step.removeTempDirFakeroot else Step.removeTempDirPlain]
          else [])
      ++ (if host.networkSetupPresent then [Step.delNetworks] else [])
      ++ (if host.cgroupsManagerPresent then [Step.destroyCgroup] else [])
      ++ (if host.cryptDev ≠ "" then [Step.cleanupCrypt] else [])
      ++ (if cfg.instanceFlag then [Step.deleteInstanceFile] else []) := by
  unfold CleanupContainer
  cases hf : cfg.instanceFlag <;> simp [hf]

lemma cleanupContainer_ret (cfg : EngineConfig) (host : HostState)
    (out : StepOutcomes) :
    (CleanupContainer cfg host out).ret =
      (if cfg.instanceFlag then
        match out.instanceGetErr with
        | some e => some e
        | none => out.instanceDeleteErr
      else none) := by
  unfold CleanupContainer
  cases hf : cfg.instanceFlag <;> simp [hf]

/-- C1: for every engine configuration and every pattern of individual
step failures, `CleanupContainer` performs exactly the same cleanup
steps as in the all-success run (no later step is skipped because an
earlier one failed; failures of steps 1-6 are only logged), the only
error returned to the caller is the failure of the instance-file
deletion step (an `instance.Get` error, else the `file.Delete` error),
and that step is attempted exactly when the configuration marks the
run as a named instance. -/
theorem cleanupContainer_error_policy (cfg : EngineConfig)
    (host : HostState) (out : StepOutcomes) :
    (CleanupContainer cfg host out).steps
        = (CleanupContainer cfg host noFailures).steps
    ∧ (CleanupContainer cfg host out).ret =
        (if cfg.instanceFlag then
          match out.instanceGetErr with
          | some e => some e
          | none => out.instanceDeleteErr
        else none)
    ∧ (Step.deleteInstanceFile ∈ (CleanupContainer cfg host out).steps
        ↔ cfg.instanceFlag = true) := by
  refine ⟨?_, cleanupContainer_ret cfg host out, ?_⟩
  · rw [cleanupContainer_steps, cleanupContainer_steps]
  · rw [cleanupContainer_steps]
    by_cases hfk : cfg.fakeroot = true ∧ host.uid ≠ 0 <;>
      simp [hfk, mem_ite_list]

/-- C7 (amended): whenever the configuration records a non-empty
temporary image directory and the image-fuse flag is unset,
`CleanupContainer` removes the directory — through the fakeroot helper
subprocess exactly when the configuration indicates fakeroot and the
caller's real uid is non-zero, and through plain recursive removal
otherwise. -/
theorem cleanupContainer_tempdir_removal (cfg : EngineConfig)
    (host : HostState) (out : StepOutcomes)
    (h1 : cfg.deleteTempDir ≠ "") (h2 : cfg.imageFuse = false) :
    ((cfg.fakeroot = true ∧ host.uid ≠ 0) →
      Step.removeTempDirFakeroot ∈ (CleanupContainer cfg host out).steps
      ∧ Step.removeTempDirPlain ∉ (CleanupContainer cfg host out).steps)
    ∧ (¬(cfg.fakeroot = true ∧ host.uid ≠ 0) →
      Step.removeTempDirPlain ∈ (CleanupContainer cfg host out).steps
      ∧ Step.removeTempDirFakeroot ∉ (CleanupContainer cfg host out).steps)
    := by
  constructor <;> intro hfk <;> rw [cleanupContainer_steps] <;>
    constructor <;> simp [mem_ite_list, h1, h2, hfk]

/-- Witness for C7 (amended): in the fakeroot configuration
`cfgTempFakeroot` with unprivileged uid 1000, the fakeroot helper is
used and plain removal is not. -/
theorem cleanupContainer_tempdir_removal_witness :
    Step.removeTempDirFakeroot
      ∈ (CleanupContainer cfgTempFakeroot hostUnprivileged noFailures).steps
    ∧ Step.removeTempDirPlain
      ∉ (CleanupContainer cfgTempFakeroot hostUnprivileged noFailures).steps
    :=
  (cleanupContainer_tempdir_removal cfgTempFakeroot hostUnprivileged
    noFailures (by decide) (by decide)).1 (by decide)

/-- Counterexample for C7 as stated: in `cfgTempImageFuse` the
delete-temp-dir path is non-empty, yet because the image-fuse flag is
set, `CleanupContainer` performs neither form of temp-dir removal. -/
theorem cleanupContainer_tempdir_skipped_cex :
    cfgTempImageFuse.deleteTempDir ≠ ""
    ∧ Step.removeTempDirPlain
        ∉ (CleanupContainer cfgTempImageFuse hostUnprivileged noFailures).steps
    ∧ Step.removeTempDirFakeroot
        ∉ (CleanupContainer cfgTempImageFuse hostUnprivileged noFailures).steps
    := by
  exact ⟨by decide, by decide, by decide⟩

/-! Section: Claim about the starter stage dispatch -/

/-- C3: for each of the five stage-selector values, `startup` invokes
exactly the corresponding stage function and none of the other four, as
a one-shot dispatch: the invocation list is the singleton of the
corresponding stage function whenever the dispatch completes (the
STAGE1 branch has no Release call; the other branches reach their stage
function whenever `sconfig.Release()` succeeds, and invoke nothing at
all — process exit via Fatalf — when it fails). -/
theorem startup_dispatch (sel : StageSelector) (releaseOk : Bool) :
    startup sel releaseOk =
      (if sel = StageSelector.STAGE1 ∨ releaseOk = true then [stageFor sel]
      else []) := by
  cases sel <;> cases releaseOk <;> simp [startup, stageFor]

/-! Section: Claims about the OCI overlay wrappers -/

/-- C4: for every wrapped function outcome, once preparation has
succeeded, both `WrapWithWritableTmpFs` and `WrapWithOverlays` always
run their cleanup step after the function returns, log cleanup errors
without returning them, and return exactly the error value the wrapped
function returned. -/
theorem wrappers_preserve_payload_error :
    (∀ (prep : Except String String) (fRes cleanupRes : Option String)
      (d : String), prep = Except.ok d →
      (WrapWithWritableTmpFs prep fRes cleanupRes).cleanupRan = true
      ∧ (WrapWithWritableTmpFs prep fRes cleanupRes).ret = fRes
      ∧ (WrapWithWritableTmpFs prep fRes cleanupRes).logs = optLog cleanupRes)
    ∧ (∀ (descs : List (List Char))
      (applyRes fRes unmountRes : Option String) (ovs : GoOverlaySet),
      buildOverlaySet descs { WritableLoc := none, ReadonlyLocs := [] }
          = Except.ok ovs →
      applyRes = none →
      (WrapWithOverlays descs applyRes fRes unmountRes).cleanupRan = true
      ∧ (WrapWithOverlays descs applyRes fRes unmountRes).ret = fRes
      ∧ (WrapWithOverlays descs applyRes fRes unmountRes).logs
          = optLog unmountRes) := by
  constructor
  · intro prep fRes cleanupRes d hp
    subst hp
    exact ⟨rfl, rfl, rfl⟩
  · intro descs applyRes fRes unmountRes ovs hb ha
    subst ha
    unfold WrapWithOverlays
    rw [hb]
    exact ⟨rfl, rfl, rfl⟩

/-- Witness for C4: with a failing payload and failing cleanups, both
wrappers still run cleanup and return the payload's own error. -/
theorem wrappers_preserve_payload_error_witness :
    ((WrapWithWritableTmpFs (Except.ok "/ovdir") (some "payload failed")
        (some "cleanup failed")).ret = some "payload failed"
      ∧ (WrapWithWritableTmpFs (Except.ok "/ovdir") (some "payload failed")
        (some "cleanup failed")).cleanupRan = true)
    ∧ ((WrapWithOverlays descsOneWritable none (some "payload failed")
        (some "unmount failed")).ret = some "payload failed"
      ∧ (WrapWithOverlays descsOneWritable none (some "payload failed")
        (some "unmount failed")).cleanupRan = true) := by
  have h1 := wrappers_preserve_payload_error.1 (Except.ok "/ovdir")
    (some "payload failed") (some "cleanup failed") "/ovdir" rfl
  have h2 := wrappers_preserve_payload_error.2 descsOneWritable none
    (some "payload failed") (some "unmount failed") ovsOneWritable
    rfl rfl
  exact ⟨⟨h1.2.1, h1.1⟩, ⟨h2.2.1, h2.1⟩⟩

lemma splitFirstColon_decomp (d : List Char) :
    ∀ b, (splitFirstColon d).2 = some b →
      d = (splitFirstColon d).1 ++ ':' :: b := by
  induction d with
  | nil =>
    intro b h
    simp [splitFirstColon] at h
  | cons c rest ih =>
    intro b h
    by_cases hc : c = ':'
    · subst hc
      simp [splitFirstColon] at h ⊢
      exact h
    · simp [splitFirstColon, hc] at h ⊢
      exact ih b h

lemma endsWithRo_colon_ro (a : List Char) :
    endsWithRo (a ++ ':' :: ['r', 'o']) = true := by
  unfold endsWithRo
  have hrev : (a ++ ':' :: ['r', 'o']).reverse
      = 'o' :: 'r' :: ':' :: a.reverse := by simp
  rw [hrev]
  exact rfl

lemma goWritable_of_not_endsWithRo (d : List Char)
    (h : endsWithRo d = false) : goWritable d = true := by
  cases hg : goWritable d with
  | true => rfl
  | false =>
    exfalso
    unfold goWritable at hg
    cases hs : (splitFirstColon d).2 with
    | none =>
      rw [hs] at hg
      simp at hg
    | some s =>
      rw [hs] at hg
      by_cases hro : s = ['r', 'o']
      · have hd := splitFirstColon_decomp d s hs
        rw [hro] at hd
        rw [hd, endsWithRo_colon_ro] at h
        exact Bool.noConfusion h
      · simp [hro] at hg

lemma buildOverlaySet_two_writables :
    ∀ (descs : List (List Char)) (acc : GoOverlaySet),
      2 ≤ descs.countP goWritable
          + (if acc.WritableLoc.isSome = true then 1 else 0) →
      ∃ e, buildOverlaySet descs acc = Except.error e := by
  intro descs
  induction descs with
  | nil =>
    intro acc h
    simp only [List.countP_nil, Nat.zero_add] at h
    split at h <;> omega
  | cons p rest ih =>
    intro acc h
    rw [List.countP_cons] at h
    by_cases hw : goWritable p = true
    · by_cases hs : acc.WritableLoc.isSome = true
      · refine ⟨"more than one writable overlay specified", ?_⟩
        unfold buildOverlaySet
        rw [if_pos hw, if_pos hs]
      · have h2 : 2 ≤ rest.countP goWritable + 1 := by
          rw [if_pos hw, if_neg hs, Nat.add_zero] at h
          exact h
        obtain ⟨e, he⟩ := ih
          { acc with WritableLoc := some (splitFirstColon p).1 }
          (by simpa using h2)
        refine ⟨e, ?_⟩
        unfold buildOverlaySet
        rw [if_pos hw, if_neg hs]
        exact he
    · have hw2 : goWritable p = false := by
        revert hw
        cases goWritable p <;> simp
      have h2 : 2 ≤ rest.countP goWritable
          + (if acc.WritableLoc.isSome = true then 1 else 0) := by
        rw [if_neg (by simp [hw2]), Nat.add_zero] at h
        exact h
      obtain ⟨e, he⟩ := ih
        { acc with ReadonlyLocs := acc.ReadonlyLocs ++ [(splitFirstColon p).1] }
        (by simpa using h2)
      refine ⟨e, ?_⟩
      unfold buildOverlaySet
      rw [if_neg (by simp [hw2])]
      exact he

/-- C6: for every overlay description list in which more than one entry
is writable — an entry being writable unless it is suffixed ":ro" —
`WrapWithOverlays` returns an error before doing any mount work: the
`tools.ApplyOverlay` call is never made and no cleanup runs. -/
theorem wrapWithOverlays_rejects_two_writables (descs : List (List Char))
    (applyRes fRes unmountRes : Option String)
    (h : 2 ≤ descs.countP (fun d => !endsWithRo d)) :
    (WrapWithOverlays descs applyRes fRes unmountRes).applyAttempted = false
    ∧ (WrapWithOverlays descs applyRes fRes unmountRes).cleanupRan = false
    ∧ (WrapWithOverlays descs applyRes fRes unmountRes).ret.isSome = true
    := by
  have hmono : descs.countP (fun d => !endsWithRo d)
      ≤ descs.countP goWritable := by
    refine List.countP_mono_left ?_
    intro d _ hd
    exact goWritable_of_not_endsWithRo d (by simpa using hd)
  have hcount : 2 ≤ descs.countP goWritable
      + (if (GoOverlaySet.mk none []).WritableLoc.isSome = true
          then 1 else 0) := by
    simp
    omega
  obtain ⟨e, he⟩ := buildOverlaySet_two_writables descs
    { WritableLoc := none, ReadonlyLocs := [] } hcount
  unfold WrapWithOverlays
  rw [he]
  exact ⟨rfl, rfl, rfl⟩

/-- Witness for C6: two bare paths are both writable, so the wrapper
rejects the list without attempting the overlay mount. -/
theorem wrapWithOverlays_rejects_two_writables_witness :
    (WrapWithOverlays descsTwoWritable none none none).applyAttempted = false
    ∧ (WrapWithOverlays descsTwoWritable none none none).cleanupRan = false
    ∧ (WrapWithOverlays descsTwoWritable none none none).ret.isSome = true :=
  wrapWithOverlays_rejects_two_writables descsTwoWritable none none none
    (by decide)

/-! Section: Claim about the overlay set duplicate check -/

/-- C5 (spec-modelled): for every overlay set containing two entries
with the same resolved source path — whether both read-only or a
read-only and the writable entry — `Set.Mount` returns an error and
performs zero mount syscalls. -/
theorem overlaySet_mount_rejects_duplicates (s : OverlaySet)
    (root : String) (i j : Fin s.sourcePaths.length) (hne : i ≠ j)
    (heq : s.sourcePaths.get i = s.sourcePaths.get j) :
    (s.Mount root).1 = [] ∧ (s.Mount root).2.isSome = true := by
  have hnd : ¬ s.sourcePaths.Nodup := fun hnd =>
    hne (List.nodup_iff_injective_get.mp hnd heq)
  unfold OverlaySet.Mount
  rw [if_neg hnd]
  exact ⟨rfl, rfl⟩

/-- Witness for C5: a set whose single read-only item and writable item
share the source path "/ovl" is rejected with no mount syscalls. -/
theorem overlaySet_mount_rejects_duplicates_witness :
    (dupSet.Mount "/rootfs").1 = [] ∧ (dupSet.Mount "/rootfs").2.isSome = true
    :=
  overlaySet_mount_rejects_duplicates dupSet "/rootfs"
    ⟨0, by decide⟩ ⟨1, by decide⟩ (by decide) (by decide)
